import Mathlib

/-!
Shallow embedding of `cb_dynamodb/dynamodb.py` (ConsiliumBots/cb-wrapper-dynamodb).

Python dictionaries are modelled as association lists with Python's
assignment semantics (update in place when the key is present, append
otherwise).  The nondeterministic inputs of the code — `uuid.uuid4()` and
`datetime.datetime.now()` — are passed as explicit parameters.  The external
DynamoDB service is modelled by explicit environments (tables as lists of
items, scan pages, query responses).
-/

set_option autoImplicit false

namespace CbDynamo

/-- Model of the Python values that flow through the wrapper: `None`,
strings, integers, booleans and `decimal.Decimal` (kept as its string
representation). -/
inductive PyVal where
  | none
  | str (s : String)
  | int (n : Int)
  | bool (b : Bool)
  | dec (s : String)
  deriving DecidableEq, Repr

/-- Python `str.lower()` restricted to the ASCII range (the repository only
manipulates ASCII attribute names and values). -/
def strLower (s : String) : String :=
  ⟨s.data.map Char.toLower⟩

/-- Python `str(v)` for the modelled values: `str(None) = "None"`,
`str(True) = "True"`, `str(False) = "False"`, integers print in decimal,
strings and decimals print themselves. -/
def pyStr : PyVal → String
  | PyVal.none => "None"
  | PyVal.str s => s
  | PyVal.int n => toString n
  | PyVal.bool b => cond b "True" "False"
  | PyVal.dec s => s

/-- A Python dict with string keys, as an association list (first match
wins on lookup; keys are unique in any dict Python can build). -/
abbrev PyDict := List (String × PyVal)

/-- A DynamoDB attribute value as the wrapper builds it: a one-level Python
dict such as `{"S": "foo"}`.  The content is an arbitrary Python value
because the code can place a non-string there (the raw `timestamp`
argument). -/
abbrev AttrVal := List (String × PyVal)

/-- A formatted (typed) DynamoDB item: attribute name to typed value. -/
abbrev Item := List (String × AttrVal)

/-- A deserialized item: attribute name to plain Python value. -/
abbrev UItem := List (String × PyVal)

/-- Lookup in a Python dict (first binding of the key). -/
def dlookup {β : Type} : List (String × β) → String → Option β
  | [], _ => Option.none
  | (k, v) :: rest, key => if k = key then some v else dlookup rest key

/-- Python dict assignment `d[key] = val`: replace in place when the key is
present, append otherwise. -/
def dset {β : Type} : List (String × β) → String → β → List (String × β)
  | [], key, val => [(key, val)]
  | (k, v) :: rest, key, val =>
      if k = key then (k, val) :: rest else (k, v) :: dset rest key val

/-- Keys of a Python dict, in insertion order. -/
def dkeys {β : Type} (d : List (String × β)) : List String :=
  d.map Prod.fst

/-- Value written for one input attribute by `format_message`:
`"" if dict_to_format[key] is None else str(dict_to_format[key]).lower()`. -/
def strForm (v : PyVal) : String :=
  if v = PyVal.none then "" else strLower (pyStr v)

/-- The `for key in dict_to_format.keys()` loop of `format_message`:
`formatted_message[key] = {}` followed by
`formatted_message[key]["S"] = ...` for each input attribute. -/
def formatLoop : Item → PyDict → Item
  | m, [] => m
  | m, (k, v) :: rest => formatLoop (dset m k [("S", PyVal.str (strForm v))]) rest

/-- Timestamp value placed under `"S"`:
`str(datetime.datetime.now()) if timestamp is None else timestamp`.  When
the caller supplies a timestamp it is used unchanged (no `str(...)`). -/
def tsVal (timestamp : Option PyVal) (now : String) : PyVal :=
  match timestamp with
  | Option.none => PyVal.str now
  | some t => t

/-- `DynamoDB.format_message` (dynamodb.py:101-152).  `message_uuid` models
`str(uuid.uuid4())` and `now` models `str(datetime.datetime.now())`. -/
def format_message (dict_to_format : PyDict) (type_of_action : Option String)
    (timestamp : Option PyVal) (message_uuid : String) (now : String) :
    String × Item :=
  let base : Item :=
    if type_of_action = some "put" then
      [("message_id", [("S", PyVal.str message_uuid)]),
       ("timestamp", [("S", tsVal timestamp now)])]
    else
      [("timestamp", [("S", tsVal timestamp now)])]
  (message_uuid, formatLoop base dict_to_format)

/-- Second component of `format_message`: the item ready to be written. -/
def formattedItem (d : PyDict) (toa : Option String) (ts : Option PyVal)
    (u nowStr : String) : Item :=
  (format_message d toa ts u nowStr).2

end CbDynamo

namespace CbDynamo

theorem dkeys_cons {β : Type} (k : String) (v : β) (tl : List (String × β)) :
    dkeys ((k, v) :: tl) = k :: dkeys tl := rfl

theorem mem_dkeys_cons {β : Type} (k k0 : String) (v0 : β) (tl : List (String × β)) :
    k ∈ dkeys ((k0, v0) :: tl) ↔ k = k0 ∨ k ∈ dkeys tl := by
  rw [dkeys_cons, List.mem_cons]

theorem mem_of_dlookup {β : Type} (m : List (String × β)) (k : String) (v : β)
    (hl : dlookup m k = some v) : (k, v) ∈ m := by
  induction m with
  | nil => simp [dlookup] at hl
  | cons hd tl ih =>
      obtain ⟨k0, v0⟩ := hd
      rw [dlookup] at hl
      by_cases hkk : k0 = k
      · rw [if_pos hkk] at hl
        simp at hl
        subst hl
        subst hkk
        exact List.mem_cons_self _ _
      · rw [if_neg hkk] at hl
        exact List.mem_cons_of_mem _ (ih hl)

theorem dlookup_dset_self {β : Type} (m : List (String × β)) (k : String) (v : β) :
    dlookup (dset m k v) k = some v := by
  induction m with
  | nil => simp [dset, dlookup]
  | cons hd tl ih =>
      obtain ⟨k0, v0⟩ := hd
      by_cases h : k0 = k
      · simp [dset, dlookup, h]
      · simp [dset, dlookup, h, ih]

theorem dlookup_dset_other {β : Type} (m : List (String × β)) (k k' : String) (v : β)
    (hne : k' ≠ k) : dlookup (dset m k v) k' = dlookup m k' := by
  have hne' : ¬ (k = k') := fun h => hne h.symm
  induction m with
  | nil => simp [dset, dlookup, hne']
  | cons hd tl ih =>
      obtain ⟨k0, v0⟩ := hd
      by_cases h : k0 = k
      · subst h
        simp [dset, dlookup, hne']
      · simp [dset, dlookup, h, ih]

theorem mem_dkeys_dset {β : Type} (m : List (String × β)) (k k' : String) (v : β) :
    k' ∈ dkeys (dset m k v) ↔ k' = k ∨ k' ∈ dkeys m := by
  induction m with
  | nil => simp [dset, dkeys]
  | cons hd tl ih =>
      obtain ⟨k0, v0⟩ := hd
      by_cases h : k0 = k
      · subst h
        rw [dset, if_pos rfl, mem_dkeys_cons, mem_dkeys_cons]
        tauto
      · rw [dset, if_neg h, mem_dkeys_cons, mem_dkeys_cons, ih]
        tauto

theorem formatLoop_lookup_not_mem (d : PyDict) (m : Item) (k : String)
    (h : k ∉ dkeys d) : dlookup (formatLoop m d) k = dlookup m k := by
  induction d generalizing m with
  | nil => rfl
  | cons hd tl ih =>
      obtain ⟨k0, v0⟩ := hd
      rw [mem_dkeys_cons] at h
      push_neg at h
      rw [formatLoop, ih _ h.2, dlookup_dset_other]
      exact h.1

theorem formatLoop_lookup (d : PyDict) (m : Item) (k : String) (v : PyVal)
    (hnd : (dkeys d).Nodup) (hl : dlookup d k = some v) :
    dlookup (formatLoop m d) k = some [("S", PyVal.str (strForm v))] := by
  induction d generalizing m with
  | nil => simp [dlookup] at hl
  | cons hd tl ih =>
      obtain ⟨k0, v0⟩ := hd
      rw [dkeys_cons, List.nodup_cons] at hnd
      by_cases h : k0 = k
      · subst h
        simp [dlookup] at hl
        subst hl
        rw [formatLoop, formatLoop_lookup_not_mem _ _ _ hnd.1, dlookup_dset_self]
      · simp [dlookup, h] at hl
        rw [formatLoop]
        exact ih _ hnd.2 hl

theorem formatLoop_mem_dkeys (d : PyDict) (m : Item) (k : String) :
    k ∈ dkeys (formatLoop m d) ↔ k ∈ dkeys m ∨ k ∈ dkeys d := by
  induction d generalizing m with
  | nil => simp [formatLoop, dkeys]
  | cons hd tl ih =>
      obtain ⟨k0, v0⟩ := hd
      rw [formatLoop, ih, mem_dkeys_dset, mem_dkeys_cons]
      tauto

theorem formattedItem_put (d : PyDict) (ts : Option PyVal) (u nowStr : String) :
    formattedItem d (some "put") ts u nowStr
      = formatLoop [("message_id", [("S", PyVal.str u)]),
                    ("timestamp", [("S", tsVal ts nowStr)])] d := rfl

theorem formattedItem_not_put (d : PyDict) (toa : Option String) (ts : Option PyVal)
    (u nowStr : String) (h : toa ≠ some "put") :
    formattedItem d toa ts u nowStr
      = formatLoop [("timestamp", [("S", tsVal ts nowStr)])] d := by
  simp [formattedItem, format_message, h]

/-- Claim C1: `format_message` maps every attribute of the input dictionary
to the DynamoDB string form `{"S": s}` with `s` the lowercase string form
of the input value (empty string for `None`); the only attributes of the
result not derived from the input this way are the generated `message_id`
(present exactly when `type_of_action` is `"put"`) and the `timestamp`
added on creation. -/
theorem format_message_lowercases_attributes (d : PyDict) (toa : Option String)
    (ts : Option PyVal) (u nowStr : String) (hnd : (dkeys d).Nodup) :
    (∀ k v, dlookup d k = some v →
      dlookup (formattedItem d toa ts u nowStr) k
        = some [("S", PyVal.str (if v = PyVal.none then "" else strLower (pyStr v)))]) ∧
    (∀ k, k ∈ dkeys (formattedItem d toa ts u nowStr) →
      k ∈ dkeys d ∨ k = "timestamp" ∨ (k = "message_id" ∧ toa = some "put")) ∧
    ("message_id" ∉ dkeys d →
      ("message_id" ∈ dkeys (formattedItem d toa ts u nowStr) ↔ toa = some "put")) ∧
    ("message_id" ∉ dkeys d → toa = some "put" →
      dlookup (formattedItem d toa ts u nowStr) "message_id"
        = some [("S", PyVal.str u)]) ∧
    "timestamp" ∈ dkeys (formattedItem d toa ts u nowStr) := by
  by_cases hput : toa = some "put"
  · subst hput
    rw [formattedItem_put]
    refine ⟨?_, ?_, ?_, ?_, ?_⟩
    · intro k v hl
      rw [formatLoop_lookup _ _ _ _ hnd hl, strForm]
    · intro k hk
      rw [formatLoop_mem_dkeys] at hk
      rcases hk with hk | hk
      · simp [dkeys] at hk
        tauto
      · tauto
    · intro _
      rw [formatLoop_mem_dkeys]
      simp [dkeys]
    · intro hmem _
      rw [formatLoop_lookup_not_mem _ _ _ hmem]
      rfl
    · rw [formatLoop_mem_dkeys]
      left
      simp [dkeys]
  · rw [formattedItem_not_put _ _ _ _ _ hput]
    refine ⟨?_, ?_, ?_, ?_, ?_⟩
    · intro k v hl
      rw [formatLoop_lookup _ _ _ _ hnd hl, strForm]
    · intro k hk
      rw [formatLoop_mem_dkeys] at hk
      rcases hk with hk | hk
      · simp [dkeys] at hk
        tauto
      · tauto
    · intro hmem
      rw [formatLoop_mem_dkeys, mem_dkeys_cons]
      constructor
      · rintro ((h | h) | h)
        · exact absurd h (by decide)
        · simp [dkeys] at h
        · exact absurd h hmem
      · intro h
        exact absurd h hput
    · intro _ hp
      exact absurd hp hput
    · rw [formatLoop_mem_dkeys]
      left
      simp [dkeys]

/-- Sample input dictionary for the C1 witness. -/
def dC1 : PyDict := [("a", PyVal.int 5), ("b", PyVal.none)]

/-- Witness for C1 at a concrete input. -/
theorem format_message_lowercases_attributes_witness :
    (dkeys dC1).Nodup ∧
    ((∀ k v, dlookup dC1 k = some v →
      dlookup (formattedItem dC1 (some "put") Option.none "u" "now") k
        = some [("S", PyVal.str (if v = PyVal.none then "" else strLower (pyStr v)))]) ∧
    (∀ k, k ∈ dkeys (formattedItem dC1 (some "put") Option.none "u" "now") →
      k ∈ dkeys dC1 ∨ k = "timestamp" ∨ (k = "message_id" ∧ (some "put" : Option String) = some "put")) ∧
    ("message_id" ∉ dkeys dC1 →
      ("message_id" ∈ dkeys (formattedItem dC1 (some "put") Option.none "u" "now") ↔ (some "put" : Option String) = some "put")) ∧
    ("message_id" ∉ dkeys dC1 → (some "put" : Option String) = some "put" →
      dlookup (formattedItem dC1 (some "put") Option.none "u" "now") "message_id"
        = some [("S", PyVal.str "u")]) ∧
    "timestamp" ∈ dkeys (formattedItem dC1 (some "put") Option.none "u" "now")) :=
  ⟨by decide, format_message_lowercases_attributes dC1 (some "put") Option.none "u" "now" (by decide)⟩

/-- Item that `DynamoDB.post_message` (dynamodb.py:187-243) passes to
`client.put_item`: `format_message` with `type_of_action="put"` when
`include_message_id` is true, and without `type_of_action` otherwise. -/
def post_message_item (message : PyDict) (timestamp : Option PyVal)
    (include_message_id : Bool) (u nowStr : String) : Item :=
  if include_message_id then formattedItem message (some "put") timestamp u nowStr
  else formattedItem message Option.none timestamp u nowStr

/-- Whether an attribute value has the DynamoDB string form: a one-key dict
`{"S": s}` whose content is a string. -/
def isStringAttr : AttrVal → Bool
  | [("S", PyVal.str _)] => true
  | _ => false

theorem mem_dset {β : Type} (m : List (String × β)) (k : String) (v : β) :
    ∀ kv ∈ dset m k v, kv ∈ m ∨ kv.2 = v := by
  induction m with
  | nil =>
      intro kv hkv
      simp [dset] at hkv
      subst hkv
      exact Or.inr rfl
  | cons hd tl ih =>
      obtain ⟨k0, v0⟩ := hd
      intro kv hkv
      by_cases h : k0 = k
      · rw [dset, if_pos h] at hkv
        rcases List.mem_cons.mp hkv with h' | h'
        · subst h'
          exact Or.inr rfl
        · exact Or.inl (List.mem_cons_of_mem _ h')
      · rw [dset, if_neg h] at hkv
        rcases List.mem_cons.mp hkv with h' | h'
        · subst h'
          exact Or.inl (List.mem_cons_self _ _)
        · rcases ih kv h' with h'' | h''
          · exact Or.inl (List.mem_cons_of_mem _ h'')
          · exact Or.inr h''

theorem formatLoop_attr_shape (d : PyDict) (m : Item) :
    ∀ kv ∈ formatLoop m d, kv ∈ m ∨ ∃ x, kv.2 = [("S", PyVal.str x)] := by
  induction d generalizing m with
  | nil =>
      intro kv hkv
      exact Or.inl hkv
  | cons hd tl ih =>
      obtain ⟨k0, v0⟩ := hd
      intro kv hkv
      rw [formatLoop] at hkv
      rcases ih _ kv hkv with h | h
      · rcases mem_dset _ _ _ kv h with h' | h'
        · exact Or.inl h'
        · exact Or.inr ⟨strForm v0, h'⟩
      · exact Or.inr h

/-- Counterexample to claim C2 as stated: posting the empty message with the
caller-supplied timestamp `5` (a Python integer, passed through unchanged)
produces an item whose `timestamp` attribute is `{"S": 5}`, which is not a
string-typed value.  The `str(...)` coercion runs only when
`timestamp is None`. -/
theorem post_message_nonstring_timestamp :
    (post_message_item [] (some (PyVal.int 5)) true "u" "now").all
      (fun kv => isStringAttr kv.2) = false := by decide

/-- Claim C2 (amended): every attribute value of the item `post_message`
writes is string-typed, for every message and `include_message_id` flag,
provided the caller-supplied timestamp — which the code places under `"S"`
without coercion — is itself a string or is omitted. -/
theorem post_message_item_all_strings (message : PyDict) (timestamp : Option PyVal)
    (include_message_id : Bool) (u nowStr : String)
    (hts : timestamp = Option.none ∨ ∃ s, timestamp = some (PyVal.str s)) :
    ∀ kv ∈ post_message_item message timestamp include_message_id u nowStr,
      isStringAttr kv.2 = true := by
  have hts' : ∃ s, tsVal timestamp nowStr = PyVal.str s := by
    rcases hts with h | ⟨s, h⟩ <;> subst h
    · exact ⟨nowStr, rfl⟩
    · exact ⟨s, rfl⟩
  obtain ⟨s, hs⟩ := hts'
  intro kv hkv
  have hshape : kv ∈ ([("message_id", [("S", PyVal.str u)]),
        ("timestamp", [("S", tsVal timestamp nowStr)])] : Item)
      ∨ kv ∈ ([("timestamp", [("S", tsVal timestamp nowStr)])] : Item)
      ∨ ∃ x, kv.2 = [("S", PyVal.str x)] := by
    cases include_message_id with
    | true =>
        rw [post_message_item, if_pos rfl, formattedItem_put] at hkv
        rcases formatLoop_attr_shape _ _ kv hkv with h | h
        · exact Or.inl h
        · exact Or.inr (Or.inr h)
    | false =>
        rw [post_message_item] at hkv
        simp only [Bool.false_eq_true, if_false] at hkv
        rw [formattedItem_not_put _ _ _ _ _ (by decide)] at hkv
        rcases formatLoop_attr_shape _ _ kv hkv with h | h
        · exact Or.inr (Or.inl h)
        · exact Or.inr (Or.inr h)
  rcases hshape with h | h | ⟨x, h⟩
  · rcases List.mem_cons.mp h with h' | h'
    · subst h'
      rfl
    · simp at h'
      subst h'
      simp [hs, isStringAttr]
  · simp at h
    subst h
    simp [hs, isStringAttr]
  · obtain ⟨k0, a0⟩ := kv
    simp only at h
    subst h
    rfl

/-- Witness for the amended C2 at a concrete input. -/
theorem post_message_item_all_strings_witness :
    ((some (PyVal.str "2024-01-01") = Option.none ∨
        ∃ s, some (PyVal.str "2024-01-01") = some (PyVal.str s))) ∧
    (∀ kv ∈ post_message_item [("a", PyVal.int 7)] (some (PyVal.str "2024-01-01"))
        true "u" "now", isStringAttr kv.2 = true) :=
  ⟨Or.inr ⟨"2024-01-01", rfl⟩,
   post_message_item_all_strings [("a", PyVal.int 7)] (some (PyVal.str "2024-01-01"))
     true "u" "now" (Or.inr ⟨"2024-01-01", rfl⟩)⟩

/-- Python-style option-valued map over a list: the whole computation fails
as soon as one element fails (models a comprehension that may raise). -/
def mapOption {α β : Type} (f : α → Option β) : List α → Option (List β)
  | [] => some []
  | a :: as =>
      match f a, mapOption f as with
      | some b, some bs => some (b :: bs)
      | _, _ => Option.none

/-- Leading and trailing whitespace removal (`Decimal` accepts surrounding
whitespace in its string argument). -/
def trimWs (cs : List Char) : List Char :=
  ((cs.dropWhile Char.isWhitespace).reverse.dropWhile Char.isWhitespace).reverse

/-- Value of a string of decimal digit characters. -/
def digitsToNat (cs : List Char) : Nat :=
  cs.foldl (fun a c => a * 10 + (c.toNat - 48)) 0

/-- Parse the digits of an exponent (after the optional sign): at least
one digit, all digits. -/
def parseExpDigits (sgn : Int) (rest : List Char) : Option Int :=
  if (!rest.isEmpty) && rest.all Char.isDigit then
    some (sgn * (digitsToNat rest : Int))
  else Option.none

/-- Parse an exponent part: optional sign followed by digits. -/
def parseExpPart (cs : List Char) : Option Int :=
  match cs with
  | c :: rest =>
      if c = '+' then parseExpDigits 1 rest
      else if c = '-' then parseExpDigits (-1) rest
      else parseExpDigits 1 (c :: rest)
  | [] => Option.none

/-- Parse a finite decimal literal after the optional sign, per the
`decimal` module's grammar `digits ['.' digits]` or `'.' digits`, with an
optional `e`/`E` exponent.  Returns the coefficient digits as written, the
number of fractional digits, and the written exponent. -/
def parseFinite (cs : List Char) : Option (List Char × Nat × Int) :=
  let intPart := cs.takeWhile Char.isDigit
  let rest := cs.dropWhile Char.isDigit
  match rest with
  | [] => if intPart.isEmpty then Option.none else some (intPart, 0, 0)
  | '.' :: r2 =>
      let frac := r2.takeWhile Char.isDigit
      let r3 := r2.dropWhile Char.isDigit
      if intPart.isEmpty && frac.isEmpty then Option.none
      else
        match r3 with
        | [] => some (intPart ++ frac, frac.length, 0)
        | e :: r4 =>
            if e = 'e' || e = 'E' then
              (parseExpPart r4).map (fun ex => (intPart ++ frac, frac.length, ex))
            else Option.none
  | e :: r4 =>
      if (e = 'e' || e = 'E') && !intPart.isEmpty then
        (parseExpPart r4).map (fun ex => (intPart, 0, ex))
      else Option.none

/-- The trimmed characters of a decimal string after its optional sign. -/
def decimalBody (s : String) : List Char :=
  let cs := trimWs s.data
  match cs with
  | c :: r => if c = '-' || c = '+' then r else c :: r
  | [] => []

/-- Whether `DYNAMODB_CONTEXT.create_decimal(s)` returns normally.  The
boto3 context has `prec = 38`, `Emin = -128`, `Emax = 126`, `clamp = 0`,
and traps `Clamped`, `Overflow`, `Inexact`, `Rounded` and `Underflow` but
not `InvalidOperation`.  Hence a malformed string (and every special form:
`NaN`, `sNaN`, `Infinity`) returns normally — a failed conversion signals
only the untrapped `InvalidOperation` and quietly yields `Decimal('NaN')`.
A valid finite literal raises exactly when `Decimal._fix` signals a
trapped condition: a zero whose exponent falls outside
`[Etiny, Emax] = [-165, 126]` (`Clamped`); a value whose adjusted exponent
exceeds `Emax = 126` (`Overflow`); a subnormal (adjusted exponent below
`Emin = -128`) whose exponent falls below `Etiny = -165` (`Rounded`); or a
coefficient longer than `prec = 38` digits (`Rounded`). -/
def createDecimalOk (s : String) : Bool :=
  match parseFinite (decimalBody s) with
  | some (coeff, fracLen, ex) =>
      let sig := coeff.dropWhile (fun c => c = '0')
      let e : Int := ex - (fracLen : Int)
      if sig.isEmpty then
        decide ((-165 : Int) ≤ e) && decide (e ≤ (126 : Int))
      else
        let adj : Int := e + (sig.length : Int) - 1
        if adj > 126 then false
        else if adj < -128 then decide ((-165 : Int) ≤ e)
        else decide (sig.length ≤ 38)
  | Option.none => true

/-- A number string DynamoDB itself would store under `{"N": ...}`: a
finite decimal literal that the deserializing context accepts without
signalling (so it parses and survives `create_decimal` untouched). -/
def wellFormedNumStr (s : String) : Bool :=
  (parseFinite (decimalBody s)).isSome && createDecimalOk s

/-- Model of `boto3.dynamodb.types.TypeDeserializer.deserialize` on the
scalar type tags.  An empty dict raises `TypeError` (`none` here); dispatch
lowercases the first key (`list(value.keys())[0].lower()`); an unknown tag
raises `TypeError`; `_deserialize_s` and `_deserialize_bool` return the
content unchanged; `_deserialize_null` returns `None`; `_deserialize_n`
calls `DYNAMODB_CONTEXT.create_decimal` on the content: a string succeeds
iff `createDecimalOk` (malformed strings quietly become `Decimal('NaN')`,
modelled by keeping the string), an integer succeeds iff it fits in the
38-digit precision, a bool is the integer 0 or 1, and `None` raises
`TypeError`.  The resulting `Decimal` is modelled by its source string. -/
def tdDeserialize : AttrVal → Option PyVal
  | [] => Option.none
  | (t, v) :: _ =>
      let ty := strLower t
      if ty = "s" then some v
      else if ty = "bool" then some v
      else if ty = "null" then some PyVal.none
      else if ty = "n" then
        match v with
        | PyVal.str s => if createDecimalOk s then some (PyVal.dec s) else Option.none
        | PyVal.int n =>
            if decide (n.natAbs < 10 ^ 38) then some (PyVal.dec (toString n))
            else Option.none
        | PyVal.bool b => some (PyVal.dec (cond b "1" "0"))
        | PyVal.dec s => if createDecimalOk s then some (PyVal.dec s) else Option.none
        | PyVal.none => Option.none
      else Option.none

/-- One element of the `unformat_message` comprehension:
`{k: td.deserialize(v) for k, v in item.items()}`. -/
def deserializeItem (item : Item) : Option UItem :=
  mapOption (fun kv => (tdDeserialize kv.2).map (fun r => (kv.1, r))) item

/-- Result of `DynamoDB.unformat_message` (dynamodb.py:154-185).  When the
comprehension raises, every handler only logs, and control reaches
`return unformatted_message` with the local never assigned, so the call
raises `UnboundLocalError` instead of returning. -/
inductive UnformatResult where
  | ok (msgs : List UItem)
  | unboundLocalError
  deriving DecidableEq, Repr

/-- `DynamoDB.unformat_message` (dynamodb.py:154-185). -/
def unformat_message (to_unformat : List Item) : UnformatResult :=
  match mapOption deserializeItem to_unformat with
  | some r => UnformatResult.ok r
  | Option.none => UnformatResult.unboundLocalError

theorem mapOption_isSome {α β : Type} (f : α → Option β) (l : List α)
    (h : ∀ a ∈ l, (f a).isSome) : (mapOption f l).isSome := by
  induction l with
  | nil => rfl
  | cons a as ih =>
      have h1 := h a (List.mem_cons_self _ _)
      have h2 := ih (fun x hx => h x (List.mem_cons_of_mem _ hx))
      rw [mapOption]
      obtain ⟨b, hb⟩ := Option.isSome_iff_exists.mp h1
      obtain ⟨bs, hbs⟩ := Option.isSome_iff_exists.mp h2
      rw [hb, hbs]
      rfl

theorem mapOption_length {α β : Type} (f : α → Option β) (l : List α) (r : List β)
    (h : mapOption f l = some r) : r.length = l.length := by
  induction l generalizing r with
  | nil =>
      simp [mapOption] at h
      subst h
      rfl
  | cons a as ih =>
      rw [mapOption] at h
      cases hfa : f a with
      | none => rw [hfa] at h; exact absurd h (by simp)
      | some b =>
          cases hrest : mapOption f as with
          | none => rw [hfa, hrest] at h; exact absurd h (by simp)
          | some bs =>
              rw [hfa, hrest] at h
              simp at h
              subst h
              simp [ih bs hrest]

theorem mapOption_forall2 {α β : Type} (f : α → Option β) (l : List α) (r : List β)
    (h : mapOption f l = some r) :
    List.Forall₂ (fun a b => f a = some b) l r := by
  induction l generalizing r with
  | nil =>
      simp [mapOption] at h
      subst h
      exact List.Forall₂.nil
  | cons a as ih =>
      rw [mapOption] at h
      cases hfa : f a with
      | none => rw [hfa] at h; exact absurd h (by simp)
      | some b =>
          cases hrest : mapOption f as with
          | none => rw [hfa, hrest] at h; exact absurd h (by simp)
          | some bs =>
              rw [hfa, hrest] at h
              simp at h
              subst h
              exact List.Forall₂.cons hfa (ih bs hrest)

theorem strLower_S : strLower "S" = "s" := by decide

theorem tdDeserialize_sattr (x : PyVal) : tdDeserialize [("S", x)] = some x := by
  simp [tdDeserialize, strLower_S]

theorem deserializeItem_sattrs (item : Item)
    (h : ∀ kv ∈ item, ∃ x, kv.2 = [("S", x)]) :
    ∃ um, deserializeItem item = some um ∧
      dkeys um = dkeys item ∧
      (∀ k x, dlookup item k = some [("S", x)] → dlookup um k = some x) := by
  induction item with
  | nil =>
      refine ⟨[], rfl, rfl, ?_⟩
      intro k x hk
      simp [dlookup] at hk
  | cons hd tl ih =>
      obtain ⟨k0, a0⟩ := hd
      obtain ⟨x0, hx0⟩ := h (k0, a0) (List.mem_cons_self _ _)
      simp only at hx0
      subst hx0
      obtain ⟨um, hum, hkeys, hlook⟩ := ih (fun kv hkv => h kv (List.mem_cons_of_mem _ hkv))
      refine ⟨(k0, x0) :: um, ?_, ?_, ?_⟩
      · rw [deserializeItem, mapOption]
        rw [deserializeItem] at hum
        simp only [tdDeserialize_sattr, Option.map_some', hum]
      · rw [dkeys_cons, dkeys_cons, hkeys]
      · intro k x hk
        rw [dlookup] at hk ⊢
        by_cases hkk : k0 = k
        · rw [if_pos hkk] at hk ⊢
          simp at hk
          rw [hk]
        · rw [if_neg hkk] at hk ⊢
          exact hlook k x hk

theorem formattedItem_sattrs (d : PyDict) (toa : Option String) (ts : Option PyVal)
    (u nowStr : String) :
    ∀ kv ∈ formattedItem d toa ts u nowStr, ∃ x, kv.2 = [("S", x)] := by
  intro kv hkv
  by_cases hput : toa = some "put"
  · subst hput
    rw [formattedItem_put] at hkv
    rcases formatLoop_attr_shape _ _ kv hkv with h | ⟨x, h⟩
    · rcases List.mem_cons.mp h with h' | h'
      · subst h'
        exact ⟨PyVal.str u, rfl⟩
      · simp at h'
        subst h'
        exact ⟨tsVal ts nowStr, rfl⟩
    · exact ⟨PyVal.str x, h⟩
  · rw [formattedItem_not_put _ _ _ _ _ hput] at hkv
    rcases formatLoop_attr_shape _ _ kv hkv with h | ⟨x, h⟩
    · simp at h
      subst h
      exact ⟨tsVal ts nowStr, rfl⟩
    · exact ⟨PyVal.str x, h⟩

theorem formattedItem_lookup (d : PyDict) (toa : Option String) (ts : Option PyVal)
    (u nowStr : String) (k : String) (v : PyVal)
    (hnd : (dkeys d).Nodup) (hl : dlookup d k = some v) :
    dlookup (formattedItem d toa ts u nowStr) k
      = some [("S", PyVal.str (strForm v))] := by
  by_cases hput : toa = some "put"
  · subst hput
    rw [formattedItem_put]
    exact formatLoop_lookup _ _ _ _ hnd hl
  · rw [formattedItem_not_put _ _ _ _ _ hput]
    exact formatLoop_lookup _ _ _ _ hnd hl

theorem formattedItem_dkeys_sub (d : PyDict) (toa : Option String) (ts : Option PyVal)
    (u nowStr : String) :
    ∀ k ∈ dkeys (formattedItem d toa ts u nowStr),
      k ∈ dkeys d ∨ k = "timestamp" ∨ (k = "message_id" ∧ toa = some "put") := by
  intro k hk
  by_cases hput : toa = some "put"
  · subst hput
    rw [formattedItem_put, formatLoop_mem_dkeys] at hk
    rcases hk with hk | hk
    · simp [dkeys] at hk
      tauto
    · tauto
  · rw [formattedItem_not_put _ _ _ _ _ hput, formatLoop_mem_dkeys] at hk
    rcases hk with hk | hk
    · simp [dkeys] at hk
      tauto
    · tauto

/-- Claim C3: for a dictionary with non-`None` values, unformatting the
single-element list holding the second component of `format_message`
yields a one-element list whose element maps each input key `k` to
`str(d[k]).lower()`, the only other keys being the added `timestamp` and,
when `type_of_action` is `"put"`, `message_id`. -/
theorem unformat_format_roundtrip (d : PyDict) (toa : Option String)
    (ts : Option PyVal) (u nowStr : String)
    (hnd : (dkeys d).Nodup) (hv : ∀ kv ∈ d, kv.2 ≠ PyVal.none) :
    ∃ um, unformat_message [formattedItem d toa ts u nowStr]
        = UnformatResult.ok [um] ∧
      (∀ k v, dlookup d k = some v →
        dlookup um k = some (PyVal.str (strLower (pyStr v)))) ∧
      (∀ k, k ∈ dkeys um →
        k ∈ dkeys d ∨ k = "timestamp" ∨ (k = "message_id" ∧ toa = some "put")) := by
  obtain ⟨um, hum, hkeys, hlook⟩ :=
    deserializeItem_sattrs _ (formattedItem_sattrs d toa ts u nowStr)
  refine ⟨um, ?_, ?_, ?_⟩
  · rw [unformat_message, mapOption, hum]
    rfl
  · intro k v hl
    have h1 := formattedItem_lookup d toa ts u nowStr k v hnd hl
    have h2 := hlook k _ h1
    have hvne : v ≠ PyVal.none := hv _ (mem_of_dlookup d k v hl)
    rw [h2, strForm, if_neg hvne]
  · intro k hk
    rw [hkeys] at hk
    exact formattedItem_dkeys_sub d toa ts u nowStr k hk

/-- Sample input dictionary for the C3 witness. -/
def dC3 : PyDict := [("k", PyVal.str "AbC"), ("n", PyVal.int 12)]

/-- Witness for C3 at a concrete input. -/
theorem unformat_format_roundtrip_witness :
    (dkeys dC3).Nodup ∧ (∀ kv ∈ dC3, kv.2 ≠ PyVal.none) ∧
    (∃ um, unformat_message [formattedItem dC3 (some "put") Option.none "u" "now"]
        = UnformatResult.ok [um] ∧
      (∀ k v, dlookup dC3 k = some v →
        dlookup um k = some (PyVal.str (strLower (pyStr v)))) ∧
      (∀ k, k ∈ dkeys um →
        k ∈ dkeys dC3 ∨ k = "timestamp" ∨
          (k = "message_id" ∧ (some "put" : Option String) = some "put"))) :=
  ⟨by decide, by decide,
   unformat_format_roundtrip dC3 (some "put") Option.none "u" "now"
     (by decide) (by decide)⟩

/-- Whether an attribute value is a well-formed DynamoDB typed value over
the modelled scalar tags: `{"S": string}`, `{"N": s}` with `s` a number
string the deserializing context accepts (`wellFormedNumStr`, which bounds
the coefficient to the context's 38-digit precision and its exponent
range), `{"BOOL": bool}`, `{"NULL": bool}`. -/
def wellFormedAttr : AttrVal → Bool
  | [("S", PyVal.str _)] => true
  | [("N", PyVal.str s)] => wellFormedNumStr s
  | [("BOOL", PyVal.bool _)] => true
  | [("NULL", PyVal.bool _)] => true
  | _ => false

theorem wellFormedAttr_isSome (a : AttrVal) (h : wellFormedAttr a = true) :
    (tdDeserialize a).isSome := by
  have hS : strLower "S" = "s" := by decide
  have hN : strLower "N" = "n" := by decide
  have hB : strLower "BOOL" = "bool" := by decide
  have hU : strLower "NULL" = "null" := by decide
  unfold wellFormedAttr at h
  split at h
  · simp [tdDeserialize, hS]
  · rw [wellFormedNumStr, Bool.and_eq_true] at h
    simp [tdDeserialize, hN, h.2]
  · simp [tdDeserialize, hB]
  · simp [tdDeserialize, hU]
  · exact absurd h (by simp)

theorem unformat_message_ok_of_wellformed (l : List Item)
    (hwf : ∀ item ∈ l, ∀ kv ∈ item, wellFormedAttr kv.2 = true) :
    ∃ out, unformat_message l = UnformatResult.ok out ∧
      out.length = l.length ∧
      List.Forall₂ (fun it um => deserializeItem it = some um) l out := by
  have hsome : ∀ item ∈ l, (deserializeItem item).isSome := by
    intro item hitem
    apply mapOption_isSome
    intro kv hkv
    have := wellFormedAttr_isSome kv.2 (hwf item hitem kv hkv)
    obtain ⟨x, hx⟩ := Option.isSome_iff_exists.mp this
    rw [hx]
    rfl
  obtain ⟨out, hout⟩ := Option.isSome_iff_exists.mp (mapOption_isSome _ _ hsome)
  refine ⟨out, ?_, ?_, ?_⟩
  · rw [unformat_message, hout]
  · exact mapOption_length _ _ _ hout
  · exact mapOption_forall2 _ _ _ hout

/-- A failure raised while calling the external service: either a
`botocore.exceptions.ClientError` carrying a service error code, or a
client-side `botocore.exceptions.ParamValidationError` (which is not a
`ClientError` subclass). -/
inductive SvcError where
  | clientError (code : String)
  | paramValidationError
  deriving DecidableEq, Repr

/-- The local errors the wrapper re-raises. -/
inductive LocalError where
  | fileNotFound
  | attributeError
  | typeError
  | genericException
  | unboundLocal
  deriving DecidableEq, Repr

/-- Error translation of `post_message` (dynamodb.py:232-243): every
`ClientError` — whatever its service error code — is re-raised as
`FileNotFoundError`; any other exception is re-raised as a bare
`Exception`, which is where a `ParamValidationError` lands. -/
def post_message_translate : SvcError → LocalError
  | SvcError.clientError _ => LocalError.fileNotFound
  | SvcError.paramValidationError => LocalError.genericException

/-- Error translation of `get_all_messages_from_index` (dynamodb.py:261-275):
the handler catches every exception and inspects
`error.response["Error"]["Code"]`: ResourceNotFoundException →
FileNotFoundError, ParamValidationError → AttributeError, otherwise a bare
Exception.  A `ParamValidationError` exception has no `response`
attribute, so the inspection itself raises `AttributeError`, which
propagates to the caller. -/
def get_all_messages_translate : SvcError → LocalError
  | SvcError.clientError c =>
      if c = "ResourceNotFoundException" then LocalError.fileNotFound
      else if c = "ParamValidationError" then LocalError.attributeError
      else LocalError.genericException
  | SvcError.paramValidationError => LocalError.attributeError

/-- Error translation of `get_index_count` (dynamodb.py:314-352):
ClientError with code ResourceNotFoundException → FileNotFoundError, with
code ParamValidationError → AttributeError; for any other code line 332
executes `raise botocore.errorfactory.ClientError` on the bare class, and
since `ClientError.__init__` requires `(error_response, operation_name)`
the instantiation itself raises `TypeError`.  A `ParamValidationError`
falls to the final `except Exception` and re-raises a bare `Exception`. -/
def get_index_count_translate : SvcError → LocalError
  | SvcError.clientError c =>
      if c = "ResourceNotFoundException" then LocalError.fileNotFound
      else if c = "ParamValidationError" then LocalError.attributeError
      else LocalError.typeError
  | SvcError.paramValidationError => LocalError.genericException

/-- Error translation of `search_on_index` (dynamodb.py:470-502):
`ParamValidationError` → TypeError; ClientError with code
ValidationException → TypeError, with code ResourceNotFoundException →
FileNotFoundError; for any other code line 502 executes
`raise botocore.exceptions.ClientError` on the bare class, whose
argument-less instantiation raises `TypeError` (so every client-error code
except ResourceNotFoundException ends up as TypeError). -/
def search_on_index_translate : SvcError → LocalError
  | SvcError.clientError c =>
      if c = "ValidationException" then LocalError.typeError
      else if c = "ResourceNotFoundException" then LocalError.fileNotFound
      else LocalError.typeError
  | SvcError.paramValidationError => LocalError.typeError

/-- The three generic error kinds named by the spec. -/
inductive ErrKind where
  | notFound
  | attrValidation
  | generic
  deriving DecidableEq, Repr

/-- Kind of each local error: `FileNotFoundError` is not-found,
`AttributeError` and `TypeError` are attribute/validation errors,
everything else is a generic failure. -/
def localKind : LocalError → ErrKind
  | LocalError.fileNotFound => ErrKind.notFound
  | LocalError.attributeError => ErrKind.attrValidation
  | LocalError.typeError => ErrKind.attrValidation
  | _ => ErrKind.generic

/-- The single uniform mapping asserted by claim C5:
ResourceNotFoundException → not-found, ParamValidationError or
ValidationException → attribute/validation, anything else → generic. -/
def claimedKind : SvcError → ErrKind
  | SvcError.clientError c =>
      if c = "ResourceNotFoundException" then ErrKind.notFound
      else if c = "ParamValidationError" ∨ c = "ValidationException" then
        ErrKind.attrValidation
      else ErrKind.generic
  | SvcError.paramValidationError => ErrKind.attrValidation

/-- Counterexample to C5 as stated: a ValidationException client error
during `post_message` is re-raised as `FileNotFoundError` (not-found), not
as an attribute/validation error; the mapping is not applied uniformly. -/
theorem error_mapping_not_uniform :
    localKind (post_message_translate (SvcError.clientError "ValidationException"))
      ≠ claimedKind (SvcError.clientError "ValidationException") := by decide

/-- Claim C5 (amended): every service error is re-raised as a generic
local error kind, but the mapping is per-operation rather than uniform:
the four operations agree only on ResourceNotFoundException →
FileNotFoundError; `post_message` collapses every client-error code to
FileNotFoundError; `get_all_messages_from_index` maps ParamValidationError
to AttributeError and other codes to a bare Exception; `get_index_count`
maps ParamValidationError to AttributeError, and for other codes its bare
`raise ClientError` itself raises TypeError; `search_on_index` maps every
client-error code other than ResourceNotFoundException — and
ParamValidationError — to TypeError (for unlisted codes via the same bare
`raise ClientError` slip). -/
theorem error_translation_per_operation :
    (∀ t ∈ [post_message_translate, get_all_messages_translate,
            get_index_count_translate, search_on_index_translate],
        t (SvcError.clientError "ResourceNotFoundException")
          = LocalError.fileNotFound) ∧
    (∀ c, post_message_translate (SvcError.clientError c)
        = LocalError.fileNotFound) ∧
    (get_all_messages_translate (SvcError.clientError "ParamValidationError")
        = LocalError.attributeError) ∧
    (∀ c, c ≠ "ResourceNotFoundException" → c ≠ "ParamValidationError" →
        get_all_messages_translate (SvcError.clientError c)
          = LocalError.genericException) ∧
    (get_index_count_translate (SvcError.clientError "ParamValidationError")
        = LocalError.attributeError) ∧
    (∀ c, c ≠ "ResourceNotFoundException" → c ≠ "ParamValidationError" →
        get_index_count_translate (SvcError.clientError c)
          = LocalError.typeError) ∧
    (search_on_index_translate SvcError.paramValidationError
        = LocalError.typeError) ∧
    (∀ c, c ≠ "ResourceNotFoundException" →
        search_on_index_translate (SvcError.clientError c)
          = LocalError.typeError) := by
  refine ⟨?_, ?_, by decide, ?_, by decide, ?_, by decide, ?_⟩
  · intro t ht
    simp at ht
    rcases ht with h | h | h | h <;> subst h <;> decide
  · intro c
    rfl
  · intro c h1 h2
    rw [get_all_messages_translate, if_neg h1, if_neg h2]
  · intro c h1 h2
    rw [get_index_count_translate, if_neg h1, if_neg h2]
  · intro c h1
    by_cases hv : c = "ValidationException"
    · rw [search_on_index_translate, if_pos hv]
    · rw [search_on_index_translate, if_neg hv, if_neg h1]

/-- Witness for the amended C5: an unrecognized error code in
`get_all_messages_from_index` is re-raised generically. -/
theorem error_translation_per_operation_witness :
    get_all_messages_translate (SvcError.clientError "ThroughputExceeded")
      = LocalError.genericException :=
  error_translation_per_operation.2.2.2.1 "ThroughputExceeded"
    (by decide) (by decide)

/-- One pass of the `for item in data_to_upload["_source"]` loop of
`upload_table` (dynamodb.py:504-522): each item is posted via
`post_message(item_json, timestamp=timestamp)` and the counter is
incremented.  The first component records the `post_message` calls made,
in order. -/
def uploadLoop (timestamp : Option PyVal) :
    List PyDict → Nat → List (PyDict × Option PyVal) × Nat
  | [], counter => ([], counter)
  | item :: rest, counter =>
      let r := uploadLoop timestamp rest (counter + 1)
      ((item, timestamp) :: r.1, r.2)

/-- `DynamoDB.upload_table` (dynamodb.py:504-522).  `source` is the list
held in the input's `"_source"` field, each element being the dictionary
that `literal_eval` yields from the corresponding item string.  Returns
the trace of `post_message` calls and the returned
`(f"{counter} items uploaded", 200)` pair. -/
def upload_table (source : List PyDict) (timestamp : Option PyVal) :
    List (PyDict × Option PyVal) × String × Nat :=
  let r := uploadLoop timestamp source 0
  (r.1, (toString r.2 ++ " items uploaded", 200))

theorem uploadLoop_spec (timestamp : Option PyVal) (source : List PyDict) :
    ∀ c, uploadLoop timestamp source c
      = (source.map (fun item => (item, timestamp)), c + source.length) := by
  induction source with
  | nil =>
      intro c
      simp [uploadLoop]
  | cons item rest ih =>
      intro c
      rw [uploadLoop, ih (c + 1)]
      simp
      omega

/-- Claim C6: `upload_table` posts every element of the `_source` list
exactly once via `post_message`, in list order and with the given
timestamp, and returns the pair `("<n> items uploaded", 200)` where `n` is
the number of items in the list. -/
theorem upload_table_posts_each_once (source : List PyDict) (ts : Option PyVal) :
    (upload_table source ts).1 = source.map (fun item => (item, ts)) ∧
    (upload_table source ts).2
      = (toString source.length ++ " items uploaded", 200) := by
  rw [upload_table, uploadLoop_spec]
  simp

/-- Tables of the modelled DynamoDB region: table name to stored items. -/
abbrev TableEnv := List (String × List Item)

/-- `DynamoDB.get_index_count` (dynamodb.py:299-313): use the instance's
table when `table_name` is None, and return the store's item count for the
chosen table.  The boto3 `Table.item_count` attribute is modelled as the
exact number of items the table holds; a missing table surfaces as a
ResourceNotFoundException client error, which the except chain translates
(here via `get_index_count_translate`). -/
def get_index_count (env : TableEnv) (selfTable : String)
    (table_name : Option String) : Except LocalError Nat :=
  let t := match table_name with
    | Option.none => selfTable
    | some name => name
  match dlookup env t with
  | some items => Except.ok items.length
  | Option.none =>
      Except.error
        (get_index_count_translate (SvcError.clientError "ResourceNotFoundException"))

/-- Claim C7: for every table name (or the instance's table when none is
given), `get_index_count` returns the number of items of the requested
table. -/
theorem get_index_count_returns_count (env : TableEnv) (selfTable : String)
    (table_name : Option String) (items : List Item)
    (h : dlookup env (table_name.getD selfTable) = some items) :
    get_index_count env selfTable table_name = Except.ok items.length := by
  cases table_name with
  | none =>
      simp [Option.getD] at h
      simp [get_index_count, h]
  | some name =>
      simp [Option.getD] at h
      simp [get_index_count, h]

/-- Witness for C7 at a concrete one-table environment. -/
theorem get_index_count_returns_count_witness :
    dlookup [("messages", ([[("a", [("S", PyVal.str "x")])]] : List Item))]
        ((some "messages" : Option String).getD "other") = some [[("a", [("S", PyVal.str "x")])]] ∧
    get_index_count [("messages", [[("a", [("S", PyVal.str "x")])]])] "other"
        (some "messages")
      = Except.ok ([[("a", [("S", PyVal.str "x")])]] : List Item).length :=
  ⟨rfl, get_index_count_returns_count _ "other" (some "messages") _ rfl⟩

/-- One response of a resource-level `table.scan` call: the page's `Items`
and, when the scan is incomplete, its `LastEvaluatedKey`. -/
structure ScanPage where
  items : List UItem
  lastEvaluatedKey : Option String
  deriving DecidableEq, Repr

/-- The `while response.get('LastEvaluatedKey')` loop of
`DynamoSearch.get_column` (dynamodb.py:699-717): `p` is the current
response; while it carries a `LastEvaluatedKey` the next page is requested
(modelled by consuming `rest`) and its items are appended in order.  The
result is `none` when the loop would need a page beyond those the service
serves — not a real execution. -/
def scanFollow : ScanPage → List ScanPage → Option (List UItem)
  | p, rest =>
      match p.lastEvaluatedKey with
      | Option.none => some p.items
      | some _ =>
          match rest with
          | [] => Option.none
          | q :: qs => (scanFollow q qs).map (fun ds => p.items ++ ds)

/-- `DynamoSearch.get_column` (dynamodb.py:674-729) over the page stream
the service returns for the projected scan.  The source's two branches
(with and without `filters`) run the same scan/extend loop, differing only
in the `FilterExpression` attached to each request, which here is part of
how the service produced `pages`.  After the loop the code raises
`AttributeError` when no items matched or when the largest item holds a
single attribute (the requested attribute is absent); otherwise it returns
the accumulated data. -/
def get_column (filtersGiven : Bool) (pages : List ScanPage) :
    Option (Except LocalError (List UItem)) :=
  let data? :=
    if filtersGiven then
      match pages with
      | [] => Option.none
      | p :: rest => scanFollow p rest
    else
      match pages with
      | [] => Option.none
      | p :: rest => scanFollow p rest
  data?.map (fun data =>
    if data.length = 0 then Except.error LocalError.attributeError
    else if (data.map List.length).foldl max 0 = 1 then
      Except.error LocalError.attributeError
    else Except.ok data)

/-- A well-formed page stream: every page but the last carries a
`LastEvaluatedKey`, and the last page does not. -/
inductive PageChain : List ScanPage → Prop
  | last (p : ScanPage) (h : p.lastEvaluatedKey = Option.none) : PageChain [p]
  | cons (p q : ScanPage) (rest : List ScanPage) (h : p.lastEvaluatedKey.isSome)
      (hc : PageChain (q :: rest)) : PageChain (p :: q :: rest)

theorem scanFollow_chain (p : ScanPage) (rest : List ScanPage)
    (h : PageChain (p :: rest)) :
    scanFollow p rest = some (((p :: rest).map ScanPage.items).flatten) := by
  induction rest generalizing p with
  | nil =>
      cases h with
      | last _ hl => simp [scanFollow, hl]
  | cons q qs ih =>
      cases h with
      | cons _ _ _ hl hc =>
          obtain ⟨k, hk⟩ := Option.isSome_iff_exists.mp hl
          rw [scanFollow, hk]
          rw [ih q hc]
          simp

/-- Claim C8: when the scan response is split across pages, `get_column`
handles pagination completely, returning the concatenation, in page order,
of the `Items` of every scan page (chained through `LastEvaluatedKey` /
`ExclusiveStartKey` until a page carries no `LastEvaluatedKey`), both with
and without a `filters` argument — provided the result passes the
post-loop emptiness and attribute-presence checks that otherwise raise. -/
theorem get_column_pagination (filtersGiven : Bool) (pages : List ScanPage)
    (hchain : PageChain pages)
    (hne : ((pages.map ScanPage.items).flatten).length ≠ 0)
    (hmax : ((((pages.map ScanPage.items).flatten).map List.length).foldl max 0) ≠ 1) :
    get_column filtersGiven pages
      = some (Except.ok ((pages.map ScanPage.items).flatten)) := by
  have hpages : ∃ p rest, pages = p :: rest := by
    cases hchain with
    | last p hl => exact ⟨p, [], rfl⟩
    | cons p q rest _ _ => exact ⟨p, q :: rest, rfl⟩
  obtain ⟨p, rest, hp⟩ := hpages
  subst hp
  have hfollow := scanFollow_chain p rest hchain
  rw [get_column]
  simp only [ite_self, hfollow, Option.map_some']
  rw [if_neg hne, if_neg hmax]

/-- Two-page stream for the C8 witness. -/
def pagesC8 : List ScanPage :=
  [⟨[[("id", PyVal.str "1"), ("col", PyVal.str "v")]], some "k1"⟩,
   ⟨[[("id", PyVal.str "2"), ("col", PyVal.str "w")]], Option.none⟩]

/-- Witness for C8 on a two-page scan. -/
theorem get_column_pagination_witness :
    PageChain pagesC8 ∧
    ((pagesC8.map ScanPage.items).flatten).length ≠ 0 ∧
    ((((pagesC8.map ScanPage.items).flatten).map List.length).foldl max 0) ≠ 1 ∧
    get_column true pagesC8 = some (Except.ok ((pagesC8.map ScanPage.items).flatten)) := by
  have hchain : PageChain pagesC8 :=
    PageChain.cons _ _ _ rfl (PageChain.last _ rfl)
  exact ⟨hchain, by decide, by decide,
    get_column_pagination true pagesC8 hchain (by decide) (by decide)⟩

/-- One response of a low-level `client.query` call. -/
structure QueryResponse where
  count : Nat
  items : List Item
  deriving DecidableEq, Repr

/-- Characters of `index.split("-")[0]`: everything before the first dash. -/
def takeUntilDash : List Char → List Char
  | [] => []
  | c :: rest => if c = '-' then [] else c :: takeUntilDash rest

/-- Python's substring containment `pat in s`. -/
def containsSub (s pat : String) : Bool :=
  (List.range (s.data.length + 1)).any
    (fun i => pat.data.isPrefixOf (s.data.drop i))

/-- Index-name normalisation of `search_on_index` (dynamodb.py:436-437):
`if "-index" in index: index = index.split("-")[0]`. -/
def search_effective_index (index : String) : String :=
  if containsSub index "-index" then ⟨takeUntilDash index.data⟩ else index

/-- Value normalisation of `search_on_index` (dynamodb.py:438-439):
`if value == "new+haven": value = "new haven"`. -/
def search_effective_value (value : String) : String :=
  if value = "new+haven" then "new haven" else value

/-- The query response `search_on_index` actually inspects.  `query idx
val withFilter` is the service's response to the key condition
`idx = :p` on index `f"{idx}-index"`, with the country `FilterExpression`
attached iff `withFilter`.  The `index == "country"` branch issues an
extra query whose response is immediately overwritten by the following
`if self.country is None / else` pair, so only the final response matters:
without a country the plain query, with a country the filtered query. -/
def search_final_response (country : Option String) (index value : String)
    (query : String → String → Bool → QueryResponse) : QueryResponse :=
  if country.isNone then
    query (search_effective_index index) (search_effective_value value) false
  else
    query (search_effective_index index) (search_effective_value value) true

/-- `DynamoDB.search_on_index` (dynamodb.py:425-502) when the service
queries succeed: a zero `Count` raises `FileNotFoundError` (not caught by
the except clauses); otherwise the `Items` are unformatted and returned
(an unformat failure escapes as `UnboundLocalError`). -/
def search_on_index (country : Option String) (index value : String)
    (query : String → String → Bool → QueryResponse) :
    Except LocalError (List UItem) :=
  let response := search_final_response country index value query
  if response.count = 0 then Except.error LocalError.fileNotFound
  else
    match unformat_message response.items with
    | UnformatResult.ok out => Except.ok out
    | UnformatResult.unboundLocalError => Except.error LocalError.unboundLocal

/-- Claim C9: when the underlying query succeeds, `search_on_index` raises
`FileNotFoundError` exactly when the response's `Count` is zero, and
otherwise returns the unformatted list of matched items (given that the
matched items deserialize, as well-formed stored items do): an empty
result surfaces as a not-found error, never as an empty list. -/
theorem search_on_index_notfound_iff_empty (country : Option String)
    (index value : String) (query : String → String → Bool → QueryResponse)
    (hwf : ∀ item ∈ (search_final_response country index value query).items,
        ∀ kv ∈ item, wellFormedAttr kv.2 = true) :
    (search_on_index country index value query
        = Except.error LocalError.fileNotFound
      ↔ (search_final_response country index value query).count = 0) ∧
    ((search_final_response country index value query).count ≠ 0 →
      ∃ out, search_on_index country index value query = Except.ok out ∧
        unformat_message (search_final_response country index value query).items
          = UnformatResult.ok out) := by
  obtain ⟨out, hout, _, _⟩ := unformat_message_ok_of_wellformed _ hwf
  by_cases hc : (search_final_response country index value query).count = 0
  · constructor
    · exact ⟨fun _ => hc, fun _ => by rw [search_on_index, if_pos hc]⟩
    · intro h
      exact absurd hc h
  · constructor
    · constructor
      · intro h
        rw [search_on_index, if_neg hc, hout] at h
        exact absurd h (by simp)
      · intro h
        exact absurd h hc
    · intro _
      refine ⟨out, ?_, hout⟩
      rw [search_on_index, if_neg hc, hout]

/-- Query environment for the C9 witness: one matched item. -/
def queryC9 : String → String → Bool → QueryResponse :=
  fun _ _ _ => ⟨1, [[("country", [("S", PyVal.str "chile")])]]⟩

/-- Witness for C9 at a concrete query environment. -/
theorem search_on_index_notfound_iff_empty_witness :
    (∀ item ∈ (search_final_response (some "chile") "country-index" "x" queryC9).items,
        ∀ kv ∈ item, wellFormedAttr kv.2 = true) ∧
    ((search_on_index (some "chile") "country-index" "x" queryC9
        = Except.error LocalError.fileNotFound
      ↔ (search_final_response (some "chile") "country-index" "x" queryC9).count = 0) ∧
    ((search_final_response (some "chile") "country-index" "x" queryC9).count ≠ 0 →
      ∃ out, search_on_index (some "chile") "country-index" "x" queryC9
          = Except.ok out ∧
        unformat_message
            (search_final_response (some "chile") "country-index" "x" queryC9).items
          = UnformatResult.ok out)) :=
  ⟨by decide,
   search_on_index_notfound_iff_empty (some "chile") "country-index" "x" queryC9
     (by decide)⟩

/-- Key pair `(item["message_id"], item["timestamp"])` read from an
unformatted item when `truncate_table` builds a `DeleteRequest`; `none`
models the `KeyError` raised when an attribute is missing. -/
def itemKeyPair (um : UItem) : Option (PyVal × PyVal) :=
  match dlookup um "message_id", dlookup um "timestamp" with
  | some m, some t => some (m, t)
  | _, _ => Option.none

/-- `client.batch_write_item` with a list of `DeleteRequest`s, modelled
generously: the store removes every item whose deserialized
`(message_id, timestamp)` pair equals a requested key.  An empty request
list raises `ParamValidationError`, which `truncate_table` catches with
`pass`, so the call is a no-op.  (In the actual code the requested key
values are plain deserialized strings rather than typed attribute values,
so the real low-level client would reject every batch; the generous model
lets the deletes succeed, and the claim fails regardless.) -/
def batch_delete (table : List Item) (keys : List (PyVal × PyVal)) : List Item :=
  if keys.isEmpty then table
  else table.filter (fun it =>
    match deserializeItem it with
    | some um =>
        match itemKeyPair um with
        | some p => !(decide (p ∈ keys))
        | Option.none => true
    | Option.none => true)

/-- One iteration of the `for _ in range(math.ceil(index_count / step))`
loop of `truncate_table` (dynamodb.py:537-558): re-scan the whole table
(`get_all_messages_from_index`, i.e. unformat every current item), slice
`[start:finish]` of the fresh scan, build the delete requests from the
sliced items, and issue the batch.  `none` models the scan or key access
raising. -/
def truncate_step (table : List Item) (start fin : Nat) : Option (List Item) := do
  let allItems ← mapOption deserializeItem table
  let keys ← mapOption itemKeyPair ((allItems.drop start).take (fin - start))
  pure (batch_delete table keys)

/-- The truncation loop: `start` and `finish` advance by `step = 25` each
iteration while the table is re-scanned from scratch. -/
def truncate_loop : Nat → List Item → Nat → Nat → Option (List Item)
  | 0, table, _, _ => some table
  | Nat.succ k, table, start, fin =>
      match truncate_step table start fin with
      | some table2 => truncate_loop k table2 fin (fin + 25)
      | Option.none => Option.none

/-- `DynamoDB.truncate_table` (dynamodb.py:524-558): `index_count` is the
item count at entry and the loop runs `math.ceil(index_count / 25)` times;
returns the final table state. -/
def truncate_table (table : List Item) : Option (List Item) :=
  truncate_loop ((table.length + 24) / 25) table 0 25

/-- An item as `post_message` stores it, with a distinct `message_id`. -/
def truncItem (i : Nat) : Item :=
  [("message_id", [("S", PyVal.str (toString i))]),
   ("timestamp", [("S", PyVal.str "t")])]

/-- A 26-item table: one more than the batch step of 25. -/
def table26 : List Item := (List.range 26).map truncItem

/-- Claim C4 evaluated at the failing input: on a table of 26 items the
first iteration deletes items 0..24, but the second iteration re-scans the
now 1-item table and slices `[25:50]` of it — an empty slice — so no
delete request is ever issued for the 26th item and the table is left
non-empty, contradicting the claim (and the method's own docstring). -/
theorem truncate_table_leaves_26th_item :
    truncate_table table26 = some [truncItem 25] ∧ truncItem 25 ∈ table26 := by
  constructor
  · decide
  · decide

end CbDynamo
